import Mathlib

/-!
Verification development for the gluetun-socks5 repository.

Part 1 (`Ipvanish` namespace): the provider config updater pipeline
(`GetServers`), whose observable behaviour is pinned down by
`Test_Updater_GetServers` and by the specification document.  The updater
implementation file itself is not part of the shown sources, so the pipeline
definitions below are modelled from the specification (each such definition
carries a doc comment starting with `Modelled from the spec:`), keeping the
behaviour demanded by the test table.

Part 2 (`Socks5` namespace): the socks5 loop `State` component (`SetSettings`,
from the shown source), with `ApplyStatus` side effects reified as the list of
statuses applied.

Machine-level details that the claims do not depend on (contexts, mutexes,
network I/O) are elided; strings are Lean `String`s, IP addresses are lists of
byte values.
-/

namespace Ipvanish

/-- Splits a character list on a delimiter character; structural analogue of
splitting a string on a one-character separator, so that all parsing
definitions reduce by `decide` / `rfl`. -/
def splitOnChar (c : Char) : List Char → List (List Char)
  | [] => [[]]
  | a :: as =>
    if a = c then [] :: splitOnChar c as
    else
      match splitOnChar c as with
      | [] => [[a]]
      | x :: xs => (a :: x) :: xs

/-- Splits a string on a delimiter character. -/
def strSplit (c : Char) (s : String) : List String :=
  (splitOnChar c s.toList).map String.mk

/-- The characters of the recognized profile extension `.ovpn`. -/
def ovpnExt : List Char := ['.', 'o', 'v', 'p', 'n']

/-- Modelled from the spec: §4.1 — a file is a profile exactly when its name
carries the recognized `.ovpn` extension; other files are ignored entirely. -/
def hasOvpnExt (name : String) : Bool :=
  decide (5 ≤ name.toList.length) &&
    decide (name.toList.drop (name.toList.length - 5) = ovpnExt)

/-- Strips the 5-character `.ovpn` extension from a profile name. -/
def stripExt (name : String) : String :=
  String.mk (name.toList.take (name.toList.length - 5))

/-- Modelled from the spec: §4.1 — the fixed country code → full name table
(the full table is not in the shown sources; the entries exercised by
`Test_Updater_GetServers` are `CA → Canada` and `LU → Luxembourg`). -/
def countryCodes : List (String × String) :=
  [("CA", "Canada"), ("LU", "Luxembourg")]

/-- Joins a list of strings with single spaces. -/
def joinSpace : List String → String
  | [] => ""
  | [s] => s
  | s :: rest => s ++ " " ++ joinSpace rest

/-- Modelled from the spec: §4.1 Filename Parser (implementation absent from
the shown sources).  Splits the extension-stripped name on hyphens; fewer than
4 segments means "no metadata" (empty country and city, not an error);
otherwise segment 1 is the country code looked up in `countryCodes`,
segments 2..n-2 joined with spaces form the city, and the last segment is
discarded.  An unknown country code is fatal for the file, with the
diagnostic shown in the test table. -/
def parseFilenameSegments (filename : String) (segments : List String) :
    Except String (String × String) :=
  if segments.length < 4 then Except.ok ("", "")
  else
    match countryCodes.lookup ((segments.get? 1).getD "") with
    | some country => Except.ok (country, joinSpace ((segments.drop 2).dropLast))
    | none =>
        Except.error ("country code is unknown: " ++ ((segments.get? 1).getD "") ++
          " in " ++ filename)

/-- Filename parsing of a raw profile name (hyphen-split of the
extension-stripped name). -/
def parseFilename (filename : String) : Except String (String × String) :=
  parseFilenameSegments filename (strSplit '-' (stripExt filename))

/-- The whitespace-separated fields of one body line. -/
def lineFields (line : String) : List String := strSplit ' ' line

/-- Modelled from the spec: §4.2 — a protocol declaration line is a line whose
first field is `proto`; its value is the second field. -/
def protoToken (line : String) : Option String :=
  match lineFields line with
  | "proto" :: tok :: _ => some tok
  | _ => none

/-- Modelled from the spec: §4.2 — a remote-host declaration line is a line
whose first field is `remote`; the host is the second field. -/
def remoteHost (line : String) : Option String :=
  match lineFields line with
  | "remote" :: host :: _ => some host
  | _ => none

/-- Modelled from the spec: §4.2 — the recognized transport tokens, mapped to
the `udp` flag (`udp → true`, `tcp → false`, anything else unknown). -/
def knownProto (tok : String) : Option Bool :=
  if tok = "udp" then some true
  else if tok = "tcp" then some false
  else none

/-- Result of content parsing for one accepted file: the `udp` flag and the
single retained remote host. -/
structure ParsedContent where
  udp : Bool
  host : String
deriving DecidableEq

/-- Modelled from the spec: §4.2 — the host-presence step of the content
parser.  Zero hosts is fatal for the file; more than one host keeps only
the first and emits the advisory diagnostic of the test table. -/
def hostStep (filename : String) (udp : Bool) (hosts : List String) :
    List String × Option ParsedContent :=
  match hosts with
  | [] => (["remote host not found in " ++ filename], none)
  | [h] => ([], some ⟨udp, h⟩)
  | h :: rest =>
      (["only using the first host \"" ++ h ++ "\" and discarding " ++
        Nat.repr rest.length ++ " other hosts"], some ⟨udp, h⟩)

/-- Modelled from the spec: §4.2 Content Parser (implementation absent from
the shown sources), over the list of body lines.  The first protocol
declaration, when present, must carry a recognized transport token, else the
file is discarded with the `unknown protocol` diagnostic and the
host-presence check is skipped; an absent protocol declaration defaults to
UDP. -/
def parseContentLines (filename : String) (bodyLines : List String) :
    List String × Option ParsedContent :=
  match (bodyLines.filterMap protoToken).head? with
  | some tok =>
      match knownProto tok with
      | some udp => hostStep filename udp (bodyLines.filterMap remoteHost)
      | none => (["unknown protocol: " ++ tok ++ " in " ++ filename], none)
  | none => hostStep filename true (bodyLines.filterMap remoteHost)

/-- Content parsing of a raw body string (split on newlines). -/
def parseContent (filename body : String) : List String × Option ParsedContent :=
  parseContentLines filename (strSplit '\n' body)

/-- A server candidate built from one profile file before resolution. -/
structure ProvisionalRecord where
  country : String
  city : String
  hostname : String
  udp : Bool
deriving DecidableEq

/-- Modelled from the spec: §4.3 File Processor (implementation absent from
the shown sources), over the list of body lines.  Non-`.ovpn` names are
skipped with zero diagnostics; a filename-parser failure discards the file
(content is not parsed); otherwise the content parser decides acceptance and
an accepted file yields exactly one provisional record. -/
def processFileLines (name : String) (bodyLines : List String) :
    List String × Option ProvisionalRecord :=
  if hasOvpnExt name then
    match parseFilename name with
    | Except.error d => ([d], none)
    | Except.ok (country, city) =>
        match parseContentLines name bodyLines with
        | (diags, none) => (diags, none)
        | (diags, some pc) => (diags, some ⟨country, city, pc.host, pc.udp⟩)
  else ([], none)

/-- File processing of a raw archive entry. -/
def processFile (name body : String) : List String × Option ProvisionalRecord :=
  processFileLines name (strSplit '\n' body)

/-- All diagnostics produced by per-file processing of the archive, in archive
order. -/
def fileDiags (archive : List (String × String)) : List String :=
  (archive.map (fun e => (processFile e.1 e.2).1)).flatten

/-- The provisional records of all accepted files of the archive, in archive
order. -/
def records (archive : List (String × String)) : List ProvisionalRecord :=
  archive.filterMap (fun e => (processFile e.1 e.2).2)

/-- First-occurrence deduplication of a hostname list. -/
def dedupHosts : List String → List String
  | [] => []
  | a :: as => a :: (dedupHosts as).filter (fun b => b != a)

/-- Modelled from the spec: §4.4 — the deduplicated set of hostnames of all
accepted records (two files sharing a hostname share one resolution entry). -/
def hostnames (archive : List (String × String)) : List String :=
  dedupHosts ((records archive).map (fun r => r.hostname))

/-- The VPN type constant carried by every assembled server record. -/
def openVPN : String := "openvpn"

/-- A final catalogue entry, mirroring the `models.Server` fields used by the
updater; an IP address is a list of byte values. -/
structure Server where
  vpn : String
  country : String
  city : String
  hostname : String
  udp : Bool
  ips : List (List Nat)
deriving DecidableEq

/-- Modelled from the spec: §6 — one run's resolution-collaborator behaviour:
a hostname → IP-list mapping (empty list = failed to resolve), advisory
diagnostics, and an optional fatal error.  Per the interface contract the
outcome depends on the hostname set only through the per-hostname mapping. -/
structure ResolverBehavior where
  hostToIPs : String → List (List Nat)
  warnings : List String
  err : Option String

/-- Boolean strict order on Nat. -/
def natLt (a b : Nat) : Bool := decide (a < b)

/-- Generic boolean lexicographic strict order on lists, given a strict order
on elements. -/
def lexLt (lt : α → α → Bool) : List α → List α → Bool
  | [], [] => false
  | [], _ :: _ => true
  | _ :: _, [] => false
  | a :: as, b :: bs =>
    if lt a b then true
    else if lt b a then false
    else lexLt lt as bs

/-- Lexicographic strict order on Nat lists (byte-wise / code-point-wise
string order once strings are encoded). -/
def natListLt : List Nat → List Nat → Bool := lexLt natLt

/-- Lexicographic strict order on lists of Nat lists. -/
def keyLt : List (List Nat) → List (List Nat) → Bool := lexLt natListLt

/-- The code points of a string, as a Nat list; lexicographic order on this
encoding coincides with byte-wise order on the UTF-8 bytes. -/
def encodeString (s : String) : List Nat := s.toList.map Char.toNat

/-- Modelled from the spec: §4.5 — the deterministic sort key of a server
record: primary key is the hostname (byte-wise ascending), with the remaining
fields as tie-breakers so that the catalogue order is a deterministic function
of the record multiset. -/
def serverKey (s : Server) : List (List Nat) :=
  encodeString s.hostname :: encodeString s.vpn :: encodeString s.country ::
    encodeString s.city :: (if s.udp then [1] else [0]) :: s.ips

/-- Boolean total order on server records induced by `serverKey`. -/
def serverLeB (a b : Server) : Bool := ! keyLt (serverKey b) (serverKey a)

/-- The sorting relation on server records. -/
def srel (a b : Server) : Prop := serverLeB a b = true

/-- Modelled from the spec: §4.5 — the mandatory deterministic final sort of
the catalogue, hostname ascending. -/
def sortServers (l : List Server) : List Server :=
  @List.insertionSort Server srel (fun a b => instDecidableEqBool (serverLeB a b) true) l

/-- Modelled from the spec: §4.5 — joins resolved IPs onto a provisional
record; a hostname resolving to no IPs drops the record silently. -/
def assembleServer (resolve : String → List (List Nat)) (r : ProvisionalRecord) :
    Option Server :=
  match resolve r.hostname with
  | [] => none
  | ips => some ⟨openVPN, r.country, r.city, r.hostname, r.udp, ips⟩

/-- The insufficient-result error message. -/
def notEnoughMsg (n minServers : Nat) : String :=
  "not enough servers found: " ++ Nat.repr n ++ " and expected at least " ++
    Nat.repr minServers

/-- Modelled from the spec: §4.5 Catalogue Assembler — assembles, sorts, and
enforces the minimum-count contract (strictly fewer than the minimum is a
fatal error and no partial catalogue is returned). -/
def finishAssembly (recs : List ProvisionalRecord) (resolve : String → List (List Nat))
    (minServers : Nat) : Except String (List Server) :=
  if (sortServers (recs.filterMap (assembleServer resolve))).length < minServers then
    Except.error
      (notEnoughMsg (sortServers (recs.filterMap (assembleServer resolve))).length
        minServers)
  else Except.ok (sortServers (recs.filterMap (assembleServer resolve)))

/-- Modelled from the spec: §4.3–§4.5 and §6 — the public entry point
`GetServers` (implementation absent from the shown sources), given the
already-extracted archive and the resolution collaborator's behaviour.
Returns the diagnostics flushed to the sink and either the catalogue or the
single fatal error.  When no hosts require resolution the resolution
collaborator is skipped entirely; a fatal resolution error is surfaced as-is
after flushing all diagnostics collected so far, including the resolution
service's advisory diagnostics. -/
def getServers (archive : List (String × String)) (rb : ResolverBehavior)
    (minServers : Nat) : List String × Except String (List Server) :=
  if (hostnames archive).isEmpty then
    (fileDiags archive, finishAssembly (records archive) (fun _ => []) minServers)
  else
    match rb.err with
    | some e => (fileDiags archive ++ rb.warnings, Except.error e)
    | none =>
        (fileDiags archive ++ rb.warnings,
          finishAssembly (records archive) rb.hostToIPs minServers)

end Ipvanish

namespace Socks5

/-- The loop status constants (`constants.Stopped` / `constants.Running`) used
by `SetSettings`. -/
inductive LoopStatus where
  | stopped
  | running
deriving DecidableEq

/-- The `settings.Socks5` structure; Go pointer fields (`User`, `Password`,
`Enabled`) are modelled as `Option` values (`none` = nil pointer), so
`reflect.DeepEqual` on two settings values is structural equality.
`readTimeout` is the `time.Duration` in nanoseconds. -/
structure Settings where
  user : Option String
  password : Option String
  listeningAddress : String
  enabled : Option Bool
  readTimeout : Nat
deriving DecidableEq

/-- The socks5 loop `State`: the stored settings.  The mutex and the
`StatusApplier` collaborator are elided; the `ApplyStatus` calls performed by
`SetSettings` are reified as the ordered list it returns. -/
structure State where
  settings : Settings
deriving DecidableEq

/-- `State.GetSettings` from the source: returns the stored settings. -/
def GetSettings (s : State) : Settings := s.settings

/-- `State.SetSettings` from the source.  If the incoming settings are deeply
equal to the stored ones it returns "settings left unchanged" without storing
anything and without any `ApplyStatus` call.  Otherwise it dereferences both
`Enabled` pointers (`none` there is the Go nil-pointer panic, modelled as a
`none` result), stores the new settings, performs the status transitions of
the `switch`, and returns "settings updated".  The result triple is the
outcome string, the new state, and the ordered list of `ApplyStatus` calls. -/
def SetSettings (s : State) (newSettings : Settings) :
    Option (String × State × List LoopStatus) :=
  if newSettings = s.settings then some ("settings left unchanged", s, [])
  else
    match newSettings.enabled, s.settings.enabled with
    | some newEnabled, some previousEnabled =>
        some ("settings updated", ⟨newSettings⟩,
          if !newEnabled && !previousEnabled then []
          else if newEnabled && previousEnabled then
            [LoopStatus.stopped, LoopStatus.running]
          else if newEnabled && !previousEnabled then [LoopStatus.running]
          else [LoopStatus.stopped])
    | _, _ => none

end Socks5

namespace Ipvanish

/-! ### Order-theoretic facts about the sort comparator -/

theorem lexLt_nil_right (lt : α → α → Bool) : ∀ l, lexLt lt l [] = false := by
  intro l
  cases l <;> simp [lexLt]

theorem lexLt_asymm (lt : α → α → Bool)
    (hasym : ∀ a b, lt a b = true → lt b a = false) :
    ∀ l1 l2, lexLt lt l1 l2 = true → lexLt lt l2 l1 = false := by
  intro l1
  induction l1 with
  | nil =>
    intro l2 h
    cases l2 with
    | nil => simp [lexLt] at h
    | cons b bs => simp [lexLt]
  | cons a as ih =>
    intro l2 h
    cases l2 with
    | nil => simp [lexLt] at h
    | cons b bs =>
      cases hab : lt a b with
      | true => simp [lexLt, hab, hasym a b hab]
      | false =>
        cases hba : lt b a with
        | true => simp [lexLt, hab, hba] at h
        | false =>
          simp only [lexLt, hab, hba, if_false] at h ⊢
          exact ih bs h

theorem lexLt_trans (lt : α → α → Bool)
    (htrans : ∀ a b c, lt a b = true → lt b c = true → lt a c = true)
    (hconn : ∀ a b, lt a b = false → lt b a = false → a = b) :
    ∀ l1 l2 l3, lexLt lt l1 l2 = true → lexLt lt l2 l3 = true →
      lexLt lt l1 l3 = true := by
  intro l1
  induction l1 with
  | nil =>
    intro l2 l3 h12 h23
    cases l3 with
    | nil => rw [lexLt_nil_right] at h23; exact absurd h23 (by simp)
    | cons c cs => simp [lexLt]
  | cons a as ih =>
    intro l2 l3 h12 h23
    cases l2 with
    | nil => simp [lexLt] at h12
    | cons b bs =>
      cases l3 with
      | nil => rw [lexLt_nil_right] at h23; exact absurd h23 (by simp)
      | cons c cs =>
        cases hab : lt a b with
        | true =>
          cases hbc : lt b c with
          | true => simp [lexLt, htrans a b c hab hbc]
          | false =>
            cases hcb : lt c b with
            | true => simp [lexLt, hab, hbc, hcb] at h23
            | false =>
              have hbceq : b = c := hconn b c hbc hcb
              subst hbceq
              simp [lexLt, hab]
        | false =>
          cases hba : lt b a with
          | true => simp [lexLt, hab, hba] at h12
          | false =>
            have habeq : a = b := hconn a b hab hba
            subst habeq
            simp only [lexLt, hab, hba, if_false] at h12
            cases hac : lt a c with
            | true => simp [lexLt, hac]
            | false =>
              cases hca : lt c a with
              | true => simp [lexLt, hac, hca] at h23
              | false =>
                have haceq : a = c := hconn a c hac hca
                subst haceq
                simp only [lexLt, hac, hca, if_false] at h23 ⊢
                exact ih bs cs h12 h23

theorem lexLt_conn (lt : α → α → Bool)
    (hconn : ∀ a b, lt a b = false → lt b a = false → a = b) :
    ∀ l1 l2, lexLt lt l1 l2 = false → lexLt lt l2 l1 = false → l1 = l2 := by
  intro l1
  induction l1 with
  | nil =>
    intro l2 h12 _
    cases l2 with
    | nil => rfl
    | cons b bs => simp [lexLt] at h12
  | cons a as ih =>
    intro l2 h12 h21
    cases l2 with
    | nil => simp [lexLt] at h21
    | cons b bs =>
      cases hab : lt a b with
      | true => simp [lexLt, hab] at h12
      | false =>
        cases hba : lt b a with
        | true => simp [lexLt, hba] at h21
        | false =>
          have habeq : a = b := hconn a b hab hba
          subst habeq
          simp only [lexLt, hab, hba, if_false] at h12 h21
          rw [ih bs h12 h21]

theorem natLt_asymm : ∀ a b : Nat, natLt a b = true → natLt b a = false := by
  intro a b h
  simp [natLt] at h ⊢
  omega

theorem natLt_trans :
    ∀ a b c : Nat, natLt a b = true → natLt b c = true → natLt a c = true := by
  intro a b c h1 h2
  simp [natLt] at h1 h2 ⊢
  omega

theorem natLt_conn : ∀ a b : Nat, natLt a b = false → natLt b a = false → a = b := by
  intro a b h1 h2
  simp [natLt] at h1 h2
  omega

theorem natListLt_asymm :
    ∀ l1 l2, natListLt l1 l2 = true → natListLt l2 l1 = false :=
  lexLt_asymm natLt natLt_asymm

theorem natListLt_trans : ∀ l1 l2 l3, natListLt l1 l2 = true →
    natListLt l2 l3 = true → natListLt l1 l3 = true :=
  lexLt_trans natLt natLt_trans natLt_conn

theorem natListLt_conn :
    ∀ l1 l2, natListLt l1 l2 = false → natListLt l2 l1 = false → l1 = l2 :=
  lexLt_conn natLt natLt_conn

theorem keyLt_asymm : ∀ k1 k2, keyLt k1 k2 = true → keyLt k2 k1 = false :=
  lexLt_asymm natListLt natListLt_asymm

theorem keyLt_trans : ∀ k1 k2 k3, keyLt k1 k2 = true → keyLt k2 k3 = true →
    keyLt k1 k3 = true :=
  lexLt_trans natListLt natListLt_trans natListLt_conn

theorem keyLt_conn : ∀ k1 k2, keyLt k1 k2 = false → keyLt k2 k1 = false → k1 = k2 :=
  lexLt_conn natListLt natListLt_conn

theorem char_toNat_inj {a b : Char} (h : a.toNat = b.toNat) : a = b :=
  Char.eq_of_val_eq (UInt32.eq_of_toBitVec_eq (BitVec.eq_of_toNat_eq h))

theorem encodeString_inj {s t : String} (h : encodeString s = encodeString t) :
    s = t := by
  have hl : s.toList = t.toList :=
    List.map_injective_iff.mpr (fun a b hab => char_toNat_inj hab) h
  cases s with
  | mk d1 =>
    cases t with
    | mk d2 =>
      have hd : d1 = d2 := by simpa [String.toList] using hl
      rw [hd]

theorem serverKey_inj {a b : Server} (h : serverKey a = serverKey b) : a = b := by
  cases a with
  | mk vpn1 country1 city1 hostname1 udp1 ips1 =>
    cases b with
    | mk vpn2 country2 city2 hostname2 udp2 ips2 =>
      simp only [serverKey, List.cons.injEq] at h
      obtain ⟨h1, h2, h3, h4, h5, h6⟩ := h
      have hudp : udp1 = udp2 := by
        cases udp1 <;> cases udp2 <;> simp_all
      simp only [Server.mk.injEq]
      exact ⟨encodeString_inj h2, encodeString_inj h3, encodeString_inj h4,
        encodeString_inj h1, hudp, h6⟩

theorem srel_total : ∀ a b : Server, srel a b ∨ srel b a := by
  intro a b
  simp only [srel, serverLeB, Bool.not_eq_true']
  cases h : keyLt (serverKey b) (serverKey a) with
  | false => exact Or.inl rfl
  | true => exact Or.inr (keyLt_asymm _ _ h)

theorem srel_trans : ∀ a b c : Server, srel a b → srel b c → srel a c := by
  intro a b c hab hbc
  simp only [srel, serverLeB, Bool.not_eq_true'] at hab hbc ⊢
  cases hca : keyLt (serverKey c) (serverKey a) with
  | false => rfl
  | true =>
    cases hac : keyLt (serverKey a) (serverKey b) with
    | true =>
      have : keyLt (serverKey c) (serverKey b) = true := keyLt_trans _ _ _ hca hac
      rw [this] at hbc
      exact hbc
    | false =>
      have heq : serverKey a = serverKey b := keyLt_conn _ _ hac hab
      rw [← heq] at hbc
      rw [hca] at hbc
      exact hbc

theorem srel_antisymm : ∀ a b : Server, srel a b → srel b a → a = b := by
  intro a b hab hba
  simp only [srel, serverLeB, Bool.not_eq_true'] at hab hba
  exact serverKey_inj (keyLt_conn _ _ hba hab)

theorem sortServers_sorted (l : List Server) : List.Sorted srel (sortServers l) :=
  @List.sorted_insertionSort Server srel
    (fun a b => instDecidableEqBool (serverLeB a b) true)
    ⟨srel_total⟩ ⟨srel_trans⟩ l

theorem sortServers_perm (l : List Server) : (sortServers l).Perm l :=
  @List.perm_insertionSort Server srel
    (fun a b => instDecidableEqBool (serverLeB a b) true) l

theorem sortServers_congr {l1 l2 : List Server} (h : l1.Perm l2) :
    sortServers l1 = sortServers l2 :=
  @List.eq_of_perm_of_sorted Server srel ⟨srel_antisymm⟩ _ _
    ((sortServers_perm l1).trans (h.trans (sortServers_perm l2).symm))
    (sortServers_sorted l1) (sortServers_sorted l2)

theorem sortServers_length (l : List Server) : (sortServers l).length = l.length :=
  (sortServers_perm l).length_eq

/-! ### Pipeline plumbing lemmas -/

theorem hostnames_eq_nil_iff (archive : List (String × String)) :
    hostnames archive = [] ↔ records archive = [] := by
  cases hr : records archive <;> simp [hostnames, hr, dedupHosts]

theorem getServers_of_records_nil (archive : List (String × String))
    (rb : ResolverBehavior) (minServers : Nat) (h : records archive = []) :
    getServers archive rb minServers =
      (fileDiags archive,
        if 0 < minServers then Except.error (notEnoughMsg 0 minServers)
        else Except.ok []) := by
  have he : (hostnames archive).isEmpty = true := by
    simp [List.isEmpty_iff, (hostnames_eq_nil_iff archive).mpr h]
  simp only [getServers, he, if_true, h, finishAssembly, List.filterMap_nil]
  simp [sortServers, List.insertionSort]

theorem getServers_resolveErr (archive : List (String × String))
    (rb : ResolverBehavior) (minServers : Nat) (e : String)
    (hne : records archive ≠ []) (he : rb.err = some e) :
    getServers archive rb minServers =
      (fileDiags archive ++ rb.warnings, Except.error e) := by
  have hb : (hostnames archive).isEmpty = false := by
    simp [List.isEmpty_iff, hostnames_eq_nil_iff, hne]
  simp [getServers, hb, he]

theorem getServers_resolveOk (archive : List (String × String))
    (rb : ResolverBehavior) (minServers : Nat)
    (hne : records archive ≠ []) (he : rb.err = none) :
    getServers archive rb minServers =
      (fileDiags archive ++ rb.warnings,
        finishAssembly (records archive) rb.hostToIPs minServers) := by
  have hb : (hostnames archive).isEmpty = false := by
    simp [List.isEmpty_iff, hostnames_eq_nil_iff, hne]
  simp [getServers, hb, he]

theorem finishAssembly_ok {recs : List ProvisionalRecord}
    {resolve : String → List (List Nat)} {minServers : Nat} {servers : List Server}
    (h : finishAssembly recs resolve minServers = Except.ok servers) :
    servers = sortServers (recs.filterMap (assembleServer resolve)) := by
  unfold finishAssembly at h
  split at h
  · exact absurd h (by simp)
  · cases h
    rfl

theorem assembleServer_vpn {resolve : String → List (List Nat)}
    {r : ProvisionalRecord} {s : Server}
    (h : assembleServer resolve r = some s) : s.vpn = openVPN := by
  unfold assembleServer at h
  revert h
  cases resolve r.hostname with
  | nil => intro h; exact absurd h (by simp)
  | cons ip ips =>
    intro h
    cases h
    rfl

theorem srel_hostname {a b : Server} (h : srel a b) :
    natListLt (encodeString b.hostname) (encodeString a.hostname) = false := by
  simp only [srel, serverLeB, Bool.not_eq_true'] at h
  cases hx : natListLt (encodeString b.hostname) (encodeString a.hostname) with
  | false => rfl
  | true => simp [keyLt, serverKey, lexLt, hx] at h

/-! ### Claims -/

/-- C1: For every archive and caller-supplied minimum, on any run in which the
resolution stage does not fail fatally, if the number of assembled server
records is strictly less than the minimum then `getServers` returns the fatal
error "not enough servers found: (count) and expected at least (minimum)" with
the observed and required counts, and no server list (the error constructor
carries no catalogue); in particular, every archive producing zero accepted
profile files yields this error with observed count 0 for any minimum ≥ 1,
and minimum 0 succeeds with an empty list and no error. -/
theorem getServers_minimum_contract :
    (∀ (archive : List (String × String)) (rb : ResolverBehavior) (minServers : Nat),
        rb.err = none →
        ((records archive).filterMap (assembleServer rb.hostToIPs)).length <
          minServers →
        (getServers archive rb minServers).2 =
          Except.error
            (notEnoughMsg
              ((records archive).filterMap (assembleServer rb.hostToIPs)).length
              minServers)) ∧
    (∀ (archive : List (String × String)) (rb : ResolverBehavior) (minServers : Nat),
        records archive = [] → 1 ≤ minServers →
        (getServers archive rb minServers).2 =
          Except.error (notEnoughMsg 0 minServers)) ∧
    (∀ (archive : List (String × String)) (rb : ResolverBehavior),
        records archive = [] →
        (getServers archive rb 0).2 = Except.ok []) := by
  refine ⟨?_, ?_, ?_⟩
  · intro archive rb minServers he hlt
    by_cases hr : records archive = []
    · rw [getServers_of_records_nil _ _ _ hr]
      show (if 0 < minServers then Except.error (notEnoughMsg 0 minServers)
        else Except.ok []) = _
      rw [hr] at hlt ⊢
      simp only [List.filterMap_nil, List.length_nil] at hlt ⊢
      rw [if_pos hlt]
    · rw [getServers_resolveOk _ _ _ hr he]
      show finishAssembly (records archive) rb.hostToIPs minServers = _
      unfold finishAssembly
      rw [sortServers_length, if_pos hlt]
  · intro archive rb minServers hr hmin
    rw [getServers_of_records_nil _ _ _ hr]
    show (if 0 < minServers then Except.error (notEnoughMsg 0 minServers)
      else Except.ok []) = _
    rw [if_pos (by omega)]
  · intro archive rb hr
    rw [getServers_of_records_nil _ _ _ hr]
    rfl

/-- Closed instantiation of `getServers_minimum_contract` at concrete inputs
from the test table. -/
theorem getServers_minimum_contract_witness :
    (getServers [("somefile.txt", "x")]
        ⟨fun _ => [], [], none⟩ 2).2 = Except.error (notEnoughMsg 0 2) ∧
    (getServers [("nohost.ovpn", "")]
        ⟨fun _ => [], [], none⟩ 1).2 = Except.error (notEnoughMsg 0 1) ∧
    (getServers [] ⟨fun _ => [], [], none⟩ 0).2 = Except.ok [] :=
  ⟨getServers_minimum_contract.1 [("somefile.txt", "x")]
      ⟨fun _ => [], [], none⟩ 2 rfl (by decide),
    getServers_minimum_contract.2.1 [("nohost.ovpn", "")]
      ⟨fun _ => [], [], none⟩ 1 (by decide) (by decide),
    getServers_minimum_contract.2.2 [] ⟨fun _ => [], [], none⟩ rfl⟩

/-- C3: For every run in which the resolution service is invoked (some host
needs resolution) and returns a non-nil fatal error, `getServers` returns
that same error unchanged and no server list, regardless of the minimum, and
the diagnostics flushed to the sink are all per-file diagnostics already
collected followed by the resolution service's own advisory diagnostics. -/
theorem getServers_resolver_error_propagated :
    ∀ (archive : List (String × String)) (rb : ResolverBehavior)
      (minServers : Nat) (e : String),
      hostnames archive ≠ [] → rb.err = some e →
      getServers archive rb minServers =
        (fileDiags archive ++ rb.warnings, Except.error e) := by
  intro archive rb minServers e hh he
  exact getServers_resolveErr archive rb minServers e
    (fun hr => hh ((hostnames_eq_nil_iff archive).mpr hr)) he

/-- Closed instantiation of `getServers_resolver_error_propagated` at the
"resolve error" row of the test table. -/
theorem getServers_resolver_error_propagated_witness :
    getServers [("ipvanish-CA-City-A-hosta.ovpn", "remote hosta")]
        ⟨fun _ => [], ["resolve warning"], some "dummy"⟩ 0 =
      (["resolve warning"], Except.error "dummy") :=
  getServers_resolver_error_propagated
    [("ipvanish-CA-City-A-hosta.ovpn", "remote hosta")]
    ⟨fun _ => [], ["resolve warning"], some "dummy"⟩ 0 "dummy" (by decide) rfl

/-- C9: Every server record returned by `getServers` carries the OpenVPN
constant in its VPN field, for every archive, resolver behaviour and minimum:
the catalogue never contains a record of any other VPN type. -/
theorem getServers_vpn_always_openvpn :
    ∀ (archive : List (String × String)) (rb : ResolverBehavior)
      (minServers : Nat) (d : List String) (servers : List Server) (s : Server),
      getServers archive rb minServers = (d, Except.ok servers) →
      s ∈ servers → s.vpn = openVPN := by
  intro archive rb minServers d servers s hg hs
  by_cases hr : records archive = []
  · rw [getServers_of_records_nil _ _ _ hr, Prod.mk.injEq] at hg
    obtain ⟨-, h2⟩ := hg
    split at h2
    · exact absurd h2 (by simp)
    · cases h2
      exact absurd hs (by simp)
  · cases he : rb.err with
    | some e =>
      rw [getServers_resolveErr _ _ _ _ hr he, Prod.mk.injEq] at hg
      obtain ⟨-, h2⟩ := hg
      exact absurd h2 (by simp)
    | none =>
      rw [getServers_resolveOk _ _ _ hr he, Prod.mk.injEq] at hg
      obtain ⟨-, h2⟩ := hg
      rw [finishAssembly_ok h2] at hs
      have hmem : s ∈ (records archive).filterMap (assembleServer rb.hostToIPs) :=
        (sortServers_perm _).mem_iff.mp hs
      obtain ⟨r, -, hr2⟩ := List.mem_filterMap.mp hmem
      exact assembleServer_vpn hr2

/-- Closed instantiation of `getServers_vpn_always_openvpn` at the successful
end-to-end archive. -/
theorem getServers_vpn_always_openvpn_witness :
    (⟨openVPN, "Canada", "City A", "hosta", true, [[1, 1, 1, 1]]⟩ : Server).vpn =
      openVPN :=
  getServers_vpn_always_openvpn [("x-CA-City-A-hosta.ovpn", "remote hosta")]
    ⟨fun h => if h = "hosta" then [[1, 1, 1, 1]] else [], [], none⟩ 1 []
    [⟨openVPN, "Canada", "City A", "hosta", true, [[1, 1, 1, 1]]⟩]
    ⟨openVPN, "Canada", "City A", "hosta", true, [[1, 1, 1, 1]]⟩
    rfl (by decide)

/-- C4: Every server list returned by `getServers` is sorted by hostname in
ascending byte-wise order (code-point-lexicographic on the encoded hostname,
which agrees with byte-wise UTF-8 order), and two runs over archives holding
the same entries in permuted iteration order return identical results. -/
theorem getServers_sorted_and_order_independent :
    (∀ (archive : List (String × String)) (rb : ResolverBehavior)
        (minServers : Nat) (d : List String) (servers : List Server),
        getServers archive rb minServers = (d, Except.ok servers) →
        servers.Pairwise (fun a b =>
          natListLt (encodeString b.hostname) (encodeString a.hostname) = false)) ∧
    (∀ (archive1 archive2 : List (String × String)) (rb : ResolverBehavior)
        (minServers : Nat),
        archive1.Perm archive2 →
        (getServers archive1 rb minServers).2 =
          (getServers archive2 rb minServers).2) := by
  constructor
  · intro archive rb minServers d servers hg
    by_cases hr : records archive = []
    · rw [getServers_of_records_nil _ _ _ hr, Prod.mk.injEq] at hg
      obtain ⟨-, h2⟩ := hg
      split at h2
      · exact absurd h2 (by simp)
      · cases h2
        exact List.Pairwise.nil
    · cases he : rb.err with
      | some e =>
        rw [getServers_resolveErr _ _ _ _ hr he, Prod.mk.injEq] at hg
        obtain ⟨-, h2⟩ := hg
        exact absurd h2 (by simp)
      | none =>
        rw [getServers_resolveOk _ _ _ hr he, Prod.mk.injEq] at hg
        obtain ⟨-, h2⟩ := hg
        rw [finishAssembly_ok h2]
        exact (sortServers_sorted _).imp fun hab => srel_hostname hab
  · intro archive1 archive2 rb minServers hperm
    have hrec : (records archive1).Perm (records archive2) := hperm.filterMap _
    by_cases h1 : records archive1 = []
    · have h2 : records archive2 = [] := by
        rw [h1] at hrec
        exact hrec.symm.eq_nil
      rw [getServers_of_records_nil _ rb minServers h1,
        getServers_of_records_nil _ rb minServers h2]
    · have h2 : records archive2 ≠ [] := by
        intro hh
        rw [hh] at hrec
        exact h1 hrec.eq_nil
      cases he : rb.err with
      | some e =>
        rw [getServers_resolveErr _ _ _ _ h1 he,
          getServers_resolveErr _ _ _ _ h2 he]
      | none =>
        rw [getServers_resolveOk _ _ _ h1 he, getServers_resolveOk _ _ _ h2 he]
        show finishAssembly (records archive1) rb.hostToIPs minServers =
          finishAssembly (records archive2) rb.hostToIPs minServers
        have hsort :
            sortServers ((records archive1).filterMap (assembleServer rb.hostToIPs)) =
              sortServers ((records archive2).filterMap (assembleServer rb.hostToIPs)) :=
          sortServers_congr (hrec.filterMap _)
        unfold finishAssembly
        rw [hsort]

/-- Closed instantiation of `getServers_sorted_and_order_independent`: the
two-record success archive produces a hostname-ascending list, and swapping
the two archive entries leaves the returned catalogue unchanged. -/
theorem getServers_sorted_and_order_independent_witness :
    ([⟨openVPN, "Canada", "City A", "hosta", true, [[1, 1, 1, 1], [2, 2, 2, 2]]⟩,
      ⟨openVPN, "Luxembourg", "City B", "hostb", true,
        [[3, 3, 3, 3], [4, 4, 4, 4]]⟩] : List Server).Pairwise
      (fun a b =>
        natListLt (encodeString b.hostname) (encodeString a.hostname) = false) ∧
    (getServers [("ipvanish-CA-City-A-hosta.ovpn", "remote hosta"),
        ("ipvanish-LU-City-B-hostb.ovpn", "remote hostb")]
      ⟨fun h => if h = "hosta" then [[1, 1, 1, 1], [2, 2, 2, 2]]
        else if h = "hostb" then [[3, 3, 3, 3], [4, 4, 4, 4]] else [],
        ["resolve warning"], none⟩ 1).2 =
    (getServers [("ipvanish-LU-City-B-hostb.ovpn", "remote hostb"),
        ("ipvanish-CA-City-A-hosta.ovpn", "remote hosta")]
      ⟨fun h => if h = "hosta" then [[1, 1, 1, 1], [2, 2, 2, 2]]
        else if h = "hostb" then [[3, 3, 3, 3], [4, 4, 4, 4]] else [],
        ["resolve warning"], none⟩ 1).2 :=
  ⟨getServers_sorted_and_order_independent.1
      [("ipvanish-CA-City-A-hosta.ovpn", "remote hosta"),
        ("ipvanish-LU-City-B-hostb.ovpn", "remote hostb")]
      ⟨fun h => if h = "hosta" then [[1, 1, 1, 1], [2, 2, 2, 2]]
        else if h = "hostb" then [[3, 3, 3, 3], [4, 4, 4, 4]] else [],
        ["resolve warning"], none⟩ 1 ["resolve warning"] _ rfl,
    getServers_sorted_and_order_independent.2
      [("ipvanish-CA-City-A-hosta.ovpn", "remote hosta"),
        ("ipvanish-LU-City-B-hostb.ovpn", "remote hostb")]
      [("ipvanish-LU-City-B-hostb.ovpn", "remote hostb"),
        ("ipvanish-CA-City-A-hosta.ovpn", "remote hosta")]
      ⟨fun h => if h = "hosta" then [[1, 1, 1, 1], [2, 2, 2, 2]]
        else if h = "hostb" then [[3, 3, 3, 3], [4, 4, 4, 4]] else [],
        ["resolve warning"], none⟩ 1
      (List.Perm.swap ("ipvanish-LU-City-B-hostb.ovpn", "remote hostb")
        ("ipvanish-CA-City-A-hosta.ovpn", "remote hosta") [])⟩

/-- C2: End-to-end, the archive holding one entry
`x-CA-City-A-hosta.ovpn ↦ remote hosta`, with the resolver mapping `hosta` to
`1.1.1.1` and minimum 1, yields exactly the record
`{Canada, City A, hosta, udp, [1.1.1.1]}` and no error; and in general, for an
accepted extended-pattern filename, segment 1 is looked up in the fixed
code-to-name table for the country name, segments 2..n-2 joined with spaces
form the city, and the last segment is discarded. -/
theorem getServers_end_to_end_and_filename_metadata :
    (getServers [("x-CA-City-A-hosta.ovpn", "remote hosta")]
        ⟨fun h => if h = "hosta" then [[1, 1, 1, 1]] else [], [], none⟩ 1 =
      ([], Except.ok
        [⟨openVPN, "Canada", "City A", "hosta", true, [[1, 1, 1, 1]]⟩])) ∧
    (∀ (name : String) (segments : List String) (country : String),
        segments = strSplit '-' (stripExt name) →
        4 ≤ segments.length →
        countryCodes.lookup ((segments.get? 1).getD "") = some country →
        parseFilename name =
          Except.ok (country, joinSpace ((segments.drop 2).dropLast))) := by
  constructor
  · rfl
  · intro name segments country hseg hlen hlook
    unfold parseFilename parseFilenameSegments
    rw [← hseg, if_neg (by omega), hlook]

/-- Closed instantiation of `getServers_end_to_end_and_filename_metadata` at
the `LU` filename of the test table. -/
theorem getServers_end_to_end_and_filename_metadata_witness :
    parseFilename "ipvanish-LU-City-B-hostb.ovpn" =
      Except.ok ("Luxembourg", "City B") :=
  getServers_end_to_end_and_filename_metadata.2 "ipvanish-LU-City-B-hostb.ovpn"
    (strSplit '-' (stripExt "ipvanish-LU-City-B-hostb.ovpn")) "Luxembourg"
    rfl (by decide) (by decide)

/-- C5: For every profile body whose lines contain N > 1 remote-host
declarations, when the protocol check passes (no protocol line, or a
recognized token), content parsing emits exactly one advisory diagnostic
"only using the first host \"(first)\" and discarding (N-1) other hosts",
does not discard the file, and retains only the first host (in body order). -/
theorem parseContent_multiple_hosts_advisory :
    ∀ (filename : String) (bodyLines : List String) (h : String)
      (rest : List String) (N : Nat),
      bodyLines.filterMap remoteHost = h :: rest →
      N = (bodyLines.filterMap remoteHost).length →
      1 < N →
      ((bodyLines.filterMap protoToken).head? = none ∨
        (bodyLines.filterMap protoToken).head? = some "udp" ∨
        (bodyLines.filterMap protoToken).head? = some "tcp") →
      (parseContentLines filename bodyLines).1 =
        ["only using the first host \"" ++ h ++ "\" and discarding " ++
          Nat.repr (N - 1) ++ " other hosts"] ∧
      ∃ pc, (parseContentLines filename bodyLines).2 = some pc ∧ pc.host = h := by
  intro filename bodyLines h rest N hhosts hN hgt hproto
  obtain ⟨r2, rest', hr⟩ : ∃ r2 rest', rest = r2 :: rest' := by
    cases rest with
    | nil =>
      rw [hhosts] at hN
      simp at hN
      omega
    | cons x xs => exact ⟨x, xs, rfl⟩
  subst hr
  have hlen : N - 1 = rest'.length + 1 := by
    rw [hhosts] at hN
    simp at hN
    omega
  have key : ∀ udp : Bool,
      hostStep filename udp (bodyLines.filterMap remoteHost) =
        (["only using the first host \"" ++ h ++ "\" and discarding " ++
          Nat.repr (N - 1) ++ " other hosts"], some ⟨udp, h⟩) := by
    intro udp
    rw [hhosts, hlen]
    simp [hostStep]
  have hu : knownProto "udp" = some true := rfl
  have ht : knownProto "tcp" = some false := rfl
  rcases hproto with hp | hp | hp
  · exact ⟨by simp [parseContentLines, hp, key],
      ⟨true, h⟩, by simp [parseContentLines, hp, key], rfl⟩
  · exact ⟨by simp [parseContentLines, hp, hu, key],
      ⟨true, h⟩, by simp [parseContentLines, hp, hu, key], rfl⟩
  · exact ⟨by simp [parseContentLines, hp, ht, key],
      ⟨false, h⟩, by simp [parseContentLines, hp, ht, key], rfl⟩

/-- Closed instantiation of `parseContent_multiple_hosts_advisory` at the
"multiple hosts" row of the test table. -/
theorem parseContent_multiple_hosts_advisory_witness :
    (parseContentLines "ipvanish-CA-City-A-hosta.ovpn"
        ["remote hosta", "remote hostb"]).1 =
      ["only using the first host \"hosta\" and discarding 1 other hosts"] ∧
    ∃ pc, (parseContentLines "ipvanish-CA-City-A-hosta.ovpn"
        ["remote hosta", "remote hostb"]).2 = some pc ∧ pc.host = "hosta" :=
  parseContent_multiple_hosts_advisory "ipvanish-CA-City-A-hosta.ovpn"
    ["remote hosta", "remote hostb"] "hosta" ["hostb"] 2
    (by decide) (by decide) (by decide) (Or.inl (by decide))

theorem head_remote_not_found (filename : String) :
    ("remote host not found in " ++ filename).toList.head? = some 'r' := by
  cases filename with
  | mk d => rfl

theorem head_unknown_protocol (tok filename : String) :
    ("unknown protocol: " ++ tok ++ " in " ++ filename).toList.head? =
      some 'u' := by
  cases tok with
  | mk dt =>
    cases filename with
    | mk df => rfl

/-- C6: For every profile body whose first protocol declaration carries an
unrecognized transport token, content parsing emits exactly the diagnostic
"unknown protocol: (token) in (filename)", discards the file, and never emits
a "remote host not found" diagnostic for the same file (the protocol failure
short-circuits the host-presence check). -/
theorem parseContent_unknown_protocol_short_circuit :
    ∀ (filename : String) (bodyLines : List String) (tok : String),
      (bodyLines.filterMap protoToken).head? = some tok →
      knownProto tok = none →
      parseContentLines filename bodyLines =
        (["unknown protocol: " ++ tok ++ " in " ++ filename], none) ∧
      ("remote host not found in " ++ filename) ∉
        (parseContentLines filename bodyLines).1 := by
  intro filename bodyLines tok hp hk
  have h1 : parseContentLines filename bodyLines =
      (["unknown protocol: " ++ tok ++ " in " ++ filename], none) := by
    simp [parseContentLines, hp, hk]
  refine ⟨h1, ?_⟩
  rw [h1]
  simp only [List.mem_singleton]
  intro hcontra
  have h5 := head_remote_not_found filename
  rw [hcontra, head_unknown_protocol tok filename] at h5
  exact absurd h5 (by decide)

/-- Closed instantiation of `parseContent_unknown_protocol_short_circuit` at
the "invalid proto" row of the test table. -/
theorem parseContent_unknown_protocol_short_circuit_witness :
    parseContentLines "badproto.ovpn" ["proto invalid"] =
      (["unknown protocol: invalid in badproto.ovpn"], none) ∧
    ("remote host not found in badproto.ovpn") ∉
      (parseContentLines "badproto.ovpn" ["proto invalid"]).1 :=
  parseContent_unknown_protocol_short_circuit "badproto.ovpn" ["proto invalid"]
    "invalid" (by decide) (by decide)

/-- C7: For every profile file whose extended-pattern filename carries a
country code absent from the code-to-name table, processing emits exactly one
diagnostic "country code is unknown: (code) in (filename)", discards the file
so it never produces a server record regardless of otherwise-valid content,
and leaves the records contributed by all other archive entries unchanged. -/
theorem processFile_unknown_country_code :
    ∀ (name body code : String),
      hasOvpnExt name = true →
      4 ≤ (strSplit '-' (stripExt name)).length →
      code = ((strSplit '-' (stripExt name)).get? 1).getD "" →
      countryCodes.lookup code = none →
      processFile name body =
        (["country code is unknown: " ++ code ++ " in " ++ name], none) ∧
      ∀ (pre post : List (String × String)),
        records (pre ++ (name, body) :: post) = records pre ++ records post := by
  intro name body code hext hlen hcode hlook
  subst hcode
  have hpf : parseFilename name =
      Except.error ("country code is unknown: " ++
        ((strSplit '-' (stripExt name)).get? 1).getD "" ++ " in " ++ name) := by
    unfold parseFilename parseFilenameSegments
    rw [if_neg (by omega), hlook]
  have h1 : processFile name body =
      (["country code is unknown: " ++
        ((strSplit '-' (stripExt name)).get? 1).getD "" ++ " in " ++ name],
        none) := by
    simp [processFile, processFileLines, hext, hpf]
  refine ⟨h1, ?_⟩
  intro pre post
  have h2 : (processFile name body).2 = none := by rw [h1]
  simp [records, List.filterMap_append, List.filterMap_cons, h2]

/-- Closed instantiation of `processFile_unknown_country_code` at the
"filename parsing error" row of the test table. -/
theorem processFile_unknown_country_code_witness :
    processFile "ipvanish-unknown-City-A-hosta.ovpn" "remote hosta" =
      (["country code is unknown: unknown in ipvanish-unknown-City-A-hosta.ovpn"],
        none) ∧
    records ([("ipvanish-CA-City-A-hosta.ovpn", "remote hosta")] ++
        ("ipvanish-unknown-City-A-hosta.ovpn", "remote hosta") ::
          [("ipvanish-LU-City-B-hostb.ovpn", "remote hostb")]) =
      records [("ipvanish-CA-City-A-hosta.ovpn", "remote hosta")] ++
        records [("ipvanish-LU-City-B-hostb.ovpn", "remote hostb")] :=
  ⟨(processFile_unknown_country_code "ipvanish-unknown-City-A-hosta.ovpn"
      "remote hosta" "unknown" (by decide) (by decide) (by decide) (by decide)).1,
    (processFile_unknown_country_code "ipvanish-unknown-City-A-hosta.ovpn"
      "remote hosta" "unknown" (by decide) (by decide) (by decide) (by decide)).2
      [("ipvanish-CA-City-A-hosta.ovpn", "remote hosta")]
      [("ipvanish-LU-City-B-hostb.ovpn", "remote hostb")]⟩

/-- C8: For every profile file whose body lines contain no protocol
declaration, per-file processing behaves identically to the same file with an
explicit `proto udp` declaration prepended (default-protocol law); in
particular every record produced from such a file has `udp = true`. -/
theorem processFile_default_protocol_udp :
    ∀ (name : String) (bodyLines : List String),
      bodyLines.filterMap protoToken = [] →
      processFileLines name bodyLines =
        processFileLines name ("proto udp" :: bodyLines) ∧
      ∀ r, (processFileLines name bodyLines).2 = some r → r.udp = true := by
  intro name bodyLines hproto
  have hpt : protoToken "proto udp" = some "udp" := rfl
  have hrh : remoteHost "proto udp" = none := rfl
  have hk : knownProto "udp" = some true := rfl
  have hpc : parseContentLines name ("proto udp" :: bodyLines) =
      parseContentLines name bodyLines := by
    simp [parseContentLines, List.filterMap_cons, hpt, hrh, hk, hproto]
  have hdef : parseContentLines name bodyLines =
      hostStep name true (bodyLines.filterMap remoteHost) := by
    simp [parseContentLines, hproto]
  constructor
  · simp [processFileLines, hpc]
  · intro r hr
    unfold processFileLines at hr
    cases hext : hasOvpnExt name with
    | false =>
      rw [hext] at hr
      exact absurd hr (by simp)
    | true =>
      rw [hext] at hr
      simp only [if_true] at hr
      cases hpf : parseFilename name with
      | error d =>
        rw [hpf] at hr
        exact absurd hr (by simp)
      | ok meta2 =>
        rw [hpf] at hr
        obtain ⟨country, city⟩ := meta2
        rw [hdef] at hr
        cases hh : bodyLines.filterMap remoteHost with
        | nil =>
          rw [hh] at hr
          exact absurd hr (by simp [hostStep])
        | cons h1 hs1 =>
          cases hs1 with
          | nil =>
            rw [hh] at hr
            simp only [hostStep] at hr
            cases hr
            rfl
          | cons h2 hs2 =>
            rw [hh] at hr
            simp only [hostStep] at hr
            cases hr
            rfl

/-- Closed instantiation of `processFile_default_protocol_udp` at the
success-row body (no protocol line). -/
theorem processFile_default_protocol_udp_witness :
    processFileLines "ipvanish-CA-City-A-hosta.ovpn" ["remote hosta"] =
      processFileLines "ipvanish-CA-City-A-hosta.ovpn"
        ["proto udp", "remote hosta"] ∧
    (⟨"Canada", "City A", "hosta", true⟩ : ProvisionalRecord).udp = true :=
  ⟨(processFile_default_protocol_udp "ipvanish-CA-City-A-hosta.ovpn"
      ["remote hosta"] (by decide)).1,
    (processFile_default_protocol_udp "ipvanish-CA-City-A-hosta.ovpn"
      ["remote hosta"] (by decide)).2 ⟨"Canada", "City A", "hosta", true⟩
      (by decide)⟩

end Ipvanish

namespace Socks5

/-- C10: For every state, calling `SetSettings` with a settings value deeply
equal to the stored one returns the outcome "settings left unchanged", leaves
the stored settings untouched, and performs zero `ApplyStatus` calls; when
the new settings differ it stores them, returns "settings updated", and
applies the status transitions dictated by the old and new `Enabled` flags
(stop+start when both enabled, start when newly enabled, stop when newly
disabled, nothing when both disabled). -/
theorem SetSettings_frame_and_transitions :
    (∀ (s : State) (newSettings : Settings), newSettings = s.settings →
        SetSettings s newSettings = some ("settings left unchanged", s, [])) ∧
    (∀ (s : State) (newSettings : Settings) (nb pb : Bool),
        newSettings ≠ s.settings →
        newSettings.enabled = some nb → s.settings.enabled = some pb →
        SetSettings s newSettings =
          some ("settings updated", State.mk newSettings,
            if nb && pb then [LoopStatus.stopped, LoopStatus.running]
            else if nb && !pb then [LoopStatus.running]
            else if !nb && pb then [LoopStatus.stopped]
            else [])) := by
  constructor
  · intro s newSettings h
    simp [SetSettings, h]
  · intro s newSettings nb pb hne hnb hpb
    unfold SetSettings
    rw [if_neg hne, hnb, hpb]
    cases nb <;> cases pb <;> rfl

/-- Closed instantiation of `SetSettings_frame_and_transitions`: an identical
settings value is a no-op, and enabling the proxy applies a single `Running`
transition while storing the new settings. -/
theorem SetSettings_frame_and_transitions_witness :
    SetSettings (State.mk ⟨some "", some "", "0.0.0.0:1080", some false, 3⟩)
        ⟨some "", some "", "0.0.0.0:1080", some false, 3⟩ =
      some ("settings left unchanged",
        State.mk ⟨some "", some "", "0.0.0.0:1080", some false, 3⟩, []) ∧
    SetSettings (State.mk ⟨some "", some "", "0.0.0.0:1080", some false, 3⟩)
        ⟨some "", some "", "0.0.0.0:1080", some true, 3⟩ =
      some ("settings updated",
        State.mk ⟨some "", some "", "0.0.0.0:1080", some true, 3⟩,
        [LoopStatus.running]) :=
  ⟨SetSettings_frame_and_transitions.1
      (State.mk ⟨some "", some "", "0.0.0.0:1080", some false, 3⟩)
      ⟨some "", some "", "0.0.0.0:1080", some false, 3⟩ rfl,
    SetSettings_frame_and_transitions.2
      (State.mk ⟨some "", some "", "0.0.0.0:1080", some false, 3⟩)
      ⟨some "", some "", "0.0.0.0:1080", some true, 3⟩ true false
      (by decide) rfl rfl⟩

end Socks5
